import Mathlib

/-!
Formal model of the qstrader backtest engine.

A shallow embedding of the core of the `qstrader` backtesting library:
the simulation clock engines (`qstrader/simulation/bday.py`,
`qstrader/simulation/bhour.py`, `qstrader/utils/times.py`), the rebalance
schedule policies (`qstrader/system/rebalance/`), and the orchestrator
construction and run-loop logic (`qstrader/trading/backtest.py`), together
with spec-modelled components (broker order execution and the portfolio
ledger) whose source files are not part of the studied tree.

Time is modelled in whole minutes since an epoch whose day 0 is a Monday;
a timestamp `t : ℕ` denotes day `t / 1440` at minute-of-day `t % 1440`.
Dates (as passed to the clock constructors) are modelled as day indices.
14:30 UTC is minute 870, 15:00 is 900, 21:00 is 1260, 23:00 is 1380 and
23:59 is 1439.
-/

namespace QSTrader

/-- Minutes in one day. -/
def minutesPerDay : ℕ := 1440

/-- Day index of a minute timestamp (mirrors taking `.year/.month/.day`). -/
def dayOf (t : ℕ) : ℕ := t / 1440

/-- A day is a business day when its weekday is Monday..Friday.
Day 0 of the epoch is a Monday, so weekdays 0..4 are Mon..Fri. -/
def isBusinessDay (d : ℕ) : Bool := d % 7 < 5

/-- Python `pd.date_range(start, end, freq="B")` for day-granular endpoints:
the business days `d` with `s ≤ d ≤ e`, in ascending order.
Empty when `e < s`, exactly as pandas produces. -/
def bdateRange (s e : ℕ) : List ℕ :=
  ((List.range (e + 1 - s)).map (fun i => i + s)).filter isBusinessDay

/-- Python `pd.date_range(start, end, freq=Hour())` on minute timestamps:
`a, a + 60, a + 120, ...` up to and including the last value `≤ b`;
empty when `b < a`. -/
def hourRange (a b : ℕ) : List ℕ :=
  if b < a then [] else (List.range ((b - a) / 60 + 1)).map (fun i => a + 60 * i)

/-- The event types a `SimulationEvent` may carry
(`qstrader/simulation/event.py`). -/
inductive EventType where
  | preMarket
  | marketOpen
  | marketClose
  | postMarket
deriving DecidableEq, Repr

/-- Python `SimulationEvent` (`qstrader/simulation/event.py`): a timestamp paired
with an event type; equality is componentwise. -/
structure SimulationEvent where
  ts : ℕ
  event_type : EventType
deriving DecidableEq, Repr

/-- Python `BusinessDays._generate` (`qstrader/utils/times.py`, lines 28-43):
the business-day date range between the two dates.  The `pre_market` and
`post_market` constructor arguments of the Python class are accepted but
never read, so they do not appear here. -/
def BusinessDays.rebalances (s e : ℕ) : List ℕ := bdateRange s e

/-- Python `BusinessHours._generate` start offset (`qstrader/utils/times.py`,
lines 86-89): `0` hours with `pre_market`, otherwise
`Timedelta(hours=14, minutes=30).ceil("1h")`, i.e. 15:00 = minute 900. -/
def BusinessHours.startTime (pre_market : Bool) : ℕ :=
  if pre_market then 0 else 900

/-- Python `BusinessHours._generate` end offset (`qstrader/utils/times.py`,
lines 91-94): `21` hours when `post_market` is set, otherwise `23` hours.
Note the branch direction: the *unset* flag yields the later end time. -/
def BusinessHours.endTime (post_market : Bool) : ℕ :=
  if post_market then 1260 else 1380

/-- Python `BusinessHours._generate` (`qstrader/utils/times.py`, lines 70-107):
for every business day in the range, the whole-hour timestamps from the
start offset to the end offset. -/
def BusinessHours.rebalances (s e : ℕ) (pre_market post_market : Bool) : List ℕ :=
  (bdateRange s e).flatMap (fun d =>
    hourRange (d * 1440 + BusinessHours.startTime pre_market)
      (d * 1440 + BusinessHours.endTime post_market))

/-- Truncation of a minute timestamp to the whole hour, mirroring
`BusinessHoursSimulationEngine.__iter__` rebuilding each timestamp from
`(year, month, day, hour)` with `minute=0, second=0`. -/
def floorToHour (t : ℕ) : ℕ := t / 60 * 60

/-- Python `BusinessHoursSimulationEngine.__iter__`
(`qstrader/simulation/bhour.py`, lines 60-89): one `market_open`-typed
event per generated business-hour timestamp, truncated to the hour. -/
def BusinessHoursSimulationEngine.events (s e : ℕ) (pre_market post_market : Bool) :
    List SimulationEvent :=
  (BusinessHours.rebalances s e pre_market post_market).map
    (fun t => ⟨floorToHour t, EventType.marketOpen⟩)

/-- The failure modes of `BacktestTradingSession` construction and of the
constructors it invokes (`qstrader/trading/backtest.py`). -/
inductive InitError where
  | invalidRange
  | unknownFrequency
  | missingRebalanceWeekday
  | hourlyRebalanceNameError
  | missingCashBuffer
  | missingGrossLeverage
deriving DecidableEq, Repr

/-- The per-day event block of `BusinessDaysSimulationEngine.__iter__`
(`qstrader/simulation/bday.py`, lines 76-101): optional pre-market at
00:00, market open at 14:30, market close at 21:00, optional post-market
at 23:59. -/
def BusinessDaysSimulationEngine.dayEvents (pre_market post_market : Bool) (d : ℕ) :
    List SimulationEvent :=
  (if pre_market then [⟨d * 1440, EventType.preMarket⟩] else []) ++
  ([⟨d * 1440 + 870, EventType.marketOpen⟩, ⟨d * 1440 + 1260, EventType.marketClose⟩] ++
    (if post_market then [⟨d * 1440 + 1439, EventType.postMarket⟩] else []))

/-- Python `BusinessDaysSimulationEngine.__iter__`
(`qstrader/simulation/bday.py`, lines 66-101): the per-day blocks over
the business days of the range. -/
def BusinessDaysSimulationEngine.events (s e : ℕ) (pre_market post_market : Bool) :
    List SimulationEvent :=
  (BusinessDays.rebalances s e).flatMap
    (BusinessDaysSimulationEngine.dayEvents pre_market post_market)

/-- Python `BusinessDaysSimulationEngine.__init__`
(`qstrader/simulation/bday.py`, lines 41-64): rejects `end < start`
with a `ValueError`, then materialises the event sequence. -/
def BusinessDaysSimulationEngine.mk (s e : ℕ) (pre_market post_market : Bool) :
    Except InitError (List SimulationEvent) :=
  if e < s then Except.error InitError.invalidRange
  else Except.ok (BusinessDaysSimulationEngine.events s e pre_market post_market)

/-- Python `BusinessHoursSimulationEngine.__init__`
(`qstrader/simulation/bhour.py`, lines 39-58): performs no range
validation whatsoever and always constructs the engine. -/
def BusinessHoursSimulationEngine.mk (s e : ℕ) (pre_market post_market : Bool) :
    Except InitError (List SimulationEvent) :=
  Except.ok (BusinessHoursSimulationEngine.events s e pre_market post_market)

/-- Python `BuyAndHoldRebalance._generate_rebalances`
(`qstrader/system/rebalance/buy_and_hold.py`, lines 21-22): the single
start timestamp. -/
def BuyAndHoldRebalance.rebalances (start_dt : ℕ) : List ℕ := [start_dt]

/-- Python `HourlyRebalance._set_market_time`
(`qstrader/system/rebalance/hourly.py`, lines 33-48): 14:30 with
`pre_market`, otherwise 21:00. -/
def HourlyRebalance.marketTime (pre_market : Bool) : ℕ :=
  if pre_market then 870 else 1260

/-- Python `HourlyRebalance._generate_rebalances`
(`qstrader/system/rebalance/hourly.py`, lines 50-72): an hourly date
range between start and end, where each generated timestamp is then
rebuilt as that timestamp's *day* at the fixed market time
(`pd.Timestamp("%s %s" % (date, self.market_time))` — the trailing
time-of-day overrides the one printed with the date).  Note that
`hourly.py` never imports `pandas` or `pytz`, so in Python this method
additionally raises `NameError` as soon as it runs; the definition below
models the timestamp arithmetic the code spells out. -/
def HourlyRebalance.rebalances (s e : ℕ) (pre_market : Bool) : List ℕ :=
  (hourRange s e).map (fun t => t / 1440 * 1440 + HourlyRebalance.marketTime pre_market)

/-- Modelled from the spec: `DailyRebalance` — the file
`qstrader/system/rebalance/daily.py` is not part of the studied tree.
Per the spec, one timestamp per business day at a fixed time
(market close, 21:00 UTC). -/
def DailyRebalance.rebalances (s e : ℕ) : List ℕ :=
  (bdateRange s e).map (fun d => d * 1440 + 1260)

/-- Modelled from the spec: `WeeklyRebalance` — the file
`qstrader/system/rebalance/weekly.py` is not part of the studied tree.
Per the spec, one timestamp per week on the caller-specified weekday
(at market close); `w` is the weekday index with 0 = Monday. -/
def WeeklyRebalance.rebalances (s e w : ℕ) : List ℕ :=
  ((bdateRange s e).filter (fun d => d % 7 = w)).map (fun d => d * 1440 + 1260)

/-- Modelled from the spec: `EndOfMonthRebalance` — the file
`qstrader/system/rebalance/end_of_month.py` is not part of the studied
tree.  Per the spec, the last business day of each month, at market
close.  Calendar months are abstracted as fixed 30-day blocks here: no
claim depends on the contents of this schedule, only on the fact that
its construction performs no further validation. -/
def EndOfMonthRebalance.rebalances (s e : ℕ) : List ℕ :=
  ((bdateRange s e).filter
    (fun d => decide (∀ d2 ∈ bdateRange s e, d2 / 30 = d / 30 → d2 ≤ d))).map
    (fun d => d * 1440 + 1260)

/-- The constructor arguments of `BacktestTradingSession.__init__`
(`qstrader/trading/backtest.py`, lines 80-99) that the construction-time
checks read.  `start_dt`/`end_dt` are day indices; the optional keyword
arguments `rebalance_weekday`, `cash_buffer_percentage` and
`gross_leverage` are `none` when the corresponding key is absent from
`kwargs`. -/
structure BacktestConfig where
  start_dt : ℕ
  end_dt : ℕ
  rebalance : String
  long_only : Bool
  rebalance_weekday : Option ℕ
  cash_buffer_percentage : Option ℚ
  gross_leverage : Option ℚ
  burn_in_dt : Option ℕ
deriving DecidableEq, Repr

/-- Python `BacktestTradingSession._create_simulation_engine`
(`qstrader/trading/backtest.py`, lines 190-216): every known frequency
except `"hourly"` builds a `BusinessDaysSimulationEngine`, `"hourly"`
builds a `BusinessHoursSimulationEngine`, anything else is rejected; all
engines are constructed with `pre_market=False, post_market=False`. -/
def createSimulationEngine (c : BacktestConfig) : Except InitError (List SimulationEvent) :=
  if c.rebalance = "buy_and_hold" then
    BusinessDaysSimulationEngine.mk c.start_dt c.end_dt false false
  else if c.rebalance = "daily" then
    BusinessDaysSimulationEngine.mk c.start_dt c.end_dt false false
  else if c.rebalance = "hourly" then
    BusinessHoursSimulationEngine.mk c.start_dt c.end_dt false false
  else if c.rebalance = "weekly" then
    BusinessDaysSimulationEngine.mk c.start_dt c.end_dt false false
  else if c.rebalance = "end_of_month" then
    BusinessDaysSimulationEngine.mk c.start_dt c.end_dt false false
  else Except.error InitError.unknownFrequency

/-- Python `BacktestTradingSession._create_rebalance_event_times`
(`qstrader/trading/backtest.py`, lines 218-239).  The `"hourly"` branch
constructs `HourlyRebalance`, whose module lacks the `pandas`/`pytz`
imports its body uses, so in Python that branch raises `NameError`
before producing a schedule. -/
def createRebalanceEventTimes (c : BacktestConfig) : Except InitError (List ℕ) :=
  if c.rebalance = "buy_and_hold" then
    Except.ok (BuyAndHoldRebalance.rebalances (c.start_dt * 1440))
  else if c.rebalance = "daily" then
    Except.ok (DailyRebalance.rebalances c.start_dt c.end_dt)
  else if c.rebalance = "hourly" then
    Except.error InitError.hourlyRebalanceNameError
  else if c.rebalance = "weekly" then
    Except.ok (WeeklyRebalance.rebalances c.start_dt c.end_dt (c.rebalance_weekday.getD 0))
  else if c.rebalance = "end_of_month" then
    Except.ok (EndOfMonthRebalance.rebalances c.start_dt c.end_dt)
  else Except.error InitError.unknownFrequency

/-- Python `BacktestTradingSession._create_quant_trading_system`
(`qstrader/trading/backtest.py`, lines 241-293): with `long_only` a
`cash_buffer_percentage` keyword is required, otherwise a
`gross_leverage` keyword is required; a missing one raises
`ValueError`. -/
def createQuantTradingSystem (c : BacktestConfig) : Except InitError Unit :=
  if c.long_only then
    if c.cash_buffer_percentage = none then Except.error InitError.missingCashBuffer
    else Except.ok ()
  else
    if c.gross_leverage = none then Except.error InitError.missingGrossLeverage
    else Except.ok ()

/-- Python `BacktestTradingSession.__init__` (`qstrader/trading/backtest.py`,
lines 80-145), restricted to its fallible steps, in source order: build
the simulation engine (line 121), check the weekly-rebalance weekday
keyword (lines 123-132), build the rebalance schedule (line 141), build
the quant trading system (line 143).  The result carries the simulation
events and the rebalance schedule. -/
def backtestInit (c : BacktestConfig) : Except InitError (List SimulationEvent × List ℕ) :=
  match createSimulationEngine c with
  | Except.error err => Except.error err
  | Except.ok events =>
    if c.rebalance = "weekly" ∧ c.rebalance_weekday = none then
      Except.error InitError.missingRebalanceWeekday
    else
      match createRebalanceEventTimes c with
      | Except.error err => Except.error err
      | Except.ok sched =>
        match createQuantTradingSystem c with
        | Except.error err => Except.error err
        | Except.ok _ => Except.ok (events, sched)

/-- Python `BacktestTradingSession._is_rebalance_event`
(`qstrader/trading/backtest.py`, lines 147-155): with hourly rebalancing
every timestamp counts, otherwise membership in the schedule decides. -/
def isRebalanceEvent (rebalance : String) (schedule : List ℕ) (dt : ℕ) : Bool :=
  if rebalance = "hourly" then true else schedule.contains dt

/-- The strategy-pipeline branch of `BacktestTradingSession.run`
(`qstrader/trading/backtest.py`, lines 366-378): with a configured
burn-in the quant trading system is invoked only for `dt >= burn_in_dt`,
and in either case only when `_is_rebalance_event` holds. -/
def runInvokesQts (burn_in_dt : Option ℕ) (rebalance : String) (schedule : List ℕ)
    (dt : ℕ) : Bool :=
  match burn_in_dt with
  | some b => if b ≤ dt then isRebalanceEvent rebalance schedule dt else false
  | none => isRebalanceEvent rebalance schedule dt

/-- Modelled from the spec: the broker account backing
`get_account_total_equity` — `qstrader/broker/simulated_broker.py` is
not part of the studied tree.  Per the spec it maps each portfolio id to
that portfolio's total equity; the end-to-end tests additionally rely on
an aggregate entry under the fixed key `"master"` holding the
account-level total, which is modelled here as the sum over all
portfolios. -/
structure BrokerAccount where
  portfolios : List (String × ℚ)
deriving DecidableEq, Repr

/-- The account-level total equity: the sum over all portfolios. -/
def BrokerAccount.accountTotal (b : BrokerAccount) : ℚ :=
  (b.portfolios.map Prod.snd).sum

/-- Modelled from the spec: `SimulatedBroker.get_account_total_equity`
(source not in the studied tree) as a keyed lookup — the `"master"` key
yields the account-level total, any other key the matching portfolio's
total equity. -/
def getAccountTotalEquity (b : BrokerAccount) (key : String) : ℚ :=
  if key = "master" then BrokerAccount.accountTotal b
  else (((b.portfolios.find? (fun pr => pr.1 = key)).map Prod.snd).getD 0)

/-- The session state read by `_update_equity_curve`: the configured
portfolio id, the broker, and the equity curve accumulated so far. -/
structure EquitySession where
  portfolio_id : String
  broker : BrokerAccount
  equity_curve : List (ℕ × ℚ)
deriving DecidableEq, Repr

/-- Python `BacktestTradingSession._update_equity_curve`
(`qstrader/trading/backtest.py`, lines 295-300): appends
`(dt, broker.get_account_total_equity()["master"])` — the key is the
string literal `"master"`, not the session's `portfolio_id`. -/
def updateEquityCurve (s : EquitySession) (dt : ℕ) : List (ℕ × ℚ) :=
  s.equity_curve ++ [(dt, getAccountTotalEquity s.broker "master")]

/-- The order types of the broker model. -/
inductive OrderType where
  | market
  | limit
deriving DecidableEq, Repr

/-- Modelled from the spec: an `Order` — `qstrader/execution/order.py`
and `qstrader/broker/simulated_broker.py` are not part of the studied
tree.  `quantity > 0` is a buy, `< 0` a sell; `limit_price` is only
meaningful for LIMIT orders. -/
structure Order where
  asset : String
  quantity : ℚ
  order_type : OrderType
  limit_price : ℚ
deriving DecidableEq, Repr

/-- Modelled from the spec: a `Transaction` — one per executed order,
immutable, carrying the fill price and the commission charged. -/
structure Transaction where
  asset : String
  quantity : ℚ
  price : ℚ
  commission : ℚ
deriving DecidableEq, Repr

/-- Modelled from the spec: the cash and transaction list of a broker
portfolio, the state read and written when an order executes. -/
structure BrokerPortfolio where
  cash : ℚ
  transactions : List Transaction
deriving DecidableEq, Repr

/-- Modelled from the spec: the fill-price rule applied by
`Broker.update` against a quote `(bid, ask)` — the broker source is not
in the studied tree.  MARKET orders always fill at the ask (buy) or bid
(sell).  For LIMIT buys, the repository's own unit test
(`src/tests/unit/broker/simulated_broker.py`) pins the direction: with
quote `(101, 102)` a buy at limit 101.5 executes at the limit price and
a buy at limit 103 stays pending, i.e. a buy fills iff
`limit_price ≤ ask` — the *opposite* direction to the one stated in the
spec's §4.4 rule (the boundary case `limit_price = ask` is not pinned by
the test and is taken weakly here).  The LIMIT sell branch follows the
spec's words (`bid ≥ limit_price`); nothing in the studied tree pins
it. -/
def fillPrice (o : Order) (bid ask : ℚ) : Option ℚ :=
  match o.order_type with
  | OrderType.market => some (if 0 < o.quantity then ask else bid)
  | OrderType.limit =>
    if 0 < o.quantity then
      if o.limit_price ≤ ask then some o.limit_price else none
    else
      if o.limit_price ≤ bid then some o.limit_price else none

/-- Modelled from the spec: a zero-commission fee model, the default
(`ZeroFeeModel`, source not in the studied tree).  A fee model maps the
transaction draft `(quantity, fill price)` to a commission. -/
def zeroFee : ℚ → ℚ → ℚ := fun _ _ => 0

/-- Modelled from the spec: the evaluation of one pending order by
`Broker.update` against the quote `(bid, ask)`.  On a fill the cash is
debited by `quantity * fill_price` plus the commission, a `Transaction`
is appended and the order leaves the pending set; otherwise the
portfolio is untouched and the order remains pending.  Returns the
updated portfolio and the orders still pending. -/
def brokerUpdateOrder (fee : ℚ → ℚ → ℚ) (p : BrokerPortfolio) (o : Order)
    (bid ask : ℚ) : BrokerPortfolio × List Order :=
  match fillPrice o bid ask with
  | some px =>
    (⟨p.cash - o.quantity * px - fee o.quantity px,
      p.transactions ++ [⟨o.asset, o.quantity, px, fee o.quantity px⟩]⟩, [])
  | none => (p, [o])

/-- Modelled from the spec: a per-asset ledger position — the portfolio
ledger (`qstrader/broker/portfolio/`) is not part of the studied tree.
`avg_price` is the volume-weighted average cost basis of the currently
held (signed) quantity, and `realised_pnl` the P&L realised by reducing,
closing or flipping trades so far. -/
structure LedgerPosition where
  quantity : ℚ
  avg_price : ℚ
  realised_pnl : ℚ
deriving DecidableEq, Repr

/-- The empty position: nothing held, nothing realised. -/
def LedgerPosition.empty : LedgerPosition := ⟨0, 0, 0⟩

/-- Modelled from the spec: the position update on a transaction of
signed quantity `q` at fill price `p` (spec §4.4 step 4): a
same-direction add reweights the average cost; a reducing trade keeps
the average and realises `closed_qty * (p - avg)`; a direction flip
realises the full old quantity and resets the average to `p`. -/
def LedgerPosition.transact (pos : LedgerPosition) (q p : ℚ) : LedgerPosition :=
  if pos.quantity = 0 then
    ⟨q, p, pos.realised_pnl⟩
  else if 0 < pos.quantity * q then
    ⟨pos.quantity + q, (pos.quantity * pos.avg_price + q * p) / (pos.quantity + q),
      pos.realised_pnl⟩
  else if |q| ≤ |pos.quantity| then
    ⟨pos.quantity + q, pos.avg_price, pos.realised_pnl + (-q) * (p - pos.avg_price)⟩
  else
    ⟨pos.quantity + q, p, pos.realised_pnl + pos.quantity * (p - pos.avg_price)⟩

/-- The book cost of a position: `quantity * average cost basis`. -/
def bookCost (pos : LedgerPosition) : ℚ := pos.quantity * pos.avg_price

/-- The position an asset's transaction history
(a list of `(signed quantity, fill price)` pairs) folds up to. -/
def positionAfter (txns : List (ℚ × ℚ)) : LedgerPosition :=
  txns.foldl (fun pos t => pos.transact t.1 t.2) LedgerPosition.empty

/-- The signed net cash paid into an asset over its transaction history:
buys add `q * p`, sells subtract. -/
def netCashFlow (txns : List (ℚ × ℚ)) : ℚ :=
  (txns.map (fun t => t.1 * t.2)).sum

/-- A per-asset snapshot entry as reported by the portfolio
(`to_summary` / `portfolio_to_dict` per the spec §4.5). -/
structure AssetSnapshot where
  quantity : ℚ
  market_value : ℚ
  realised_pnl : ℚ
  unrealised_pnl : ℚ
  total_pnl : ℚ
deriving DecidableEq, Repr

/-- Modelled from the spec: the per-asset snapshot after a transaction
history `txns`, marked to the price `price`.  The market value is
`quantity * price`; the unrealised P&L marks the open position against
its book cost; the total P&L is the asset's net economic profit — the
market value of what is held minus the net cash paid for it. -/
def assetSnapshot (txns : List (ℚ × ℚ)) (price : ℚ) : AssetSnapshot :=
  ⟨(positionAfter txns).quantity,
    (positionAfter txns).quantity * price,
    (positionAfter txns).realised_pnl,
    (positionAfter txns).quantity * price - bookCost (positionAfter txns),
    (positionAfter txns).quantity * price - netCashFlow txns⟩

/-! ## Theorems -/

/-- An empty date range: no business days when the range is inverted. -/
theorem bdateRange_eq_nil {s e : ℕ} (h : e < s) : bdateRange s e = [] := by
  have h0 : e + 1 - s = 0 := by omega
  simp [bdateRange, h0]

/-- The business-day range is strictly increasing. -/
theorem bdateRange_pairwise (s e : ℕ) : (bdateRange s e).Pairwise (· < ·) := by
  unfold bdateRange
  refine List.Pairwise.filter _ ?_
  rw [List.pairwise_map]
  exact (List.pairwise_lt_range _).imp (fun h => by omega)

/-- Claim C3: the hourly clock, constructed as the backtest does with
`pre_market=False` and `post_market=False`, is claimed to yield exactly
one `market_open` event per whole hour whose time-of-day lies within
[14:30, 21:00] UTC and none outside that window.  Evaluated on the
single business day 0 (a Monday), the engine instead yields the nine
whole hours 15:00..23:00, including 22:00 and 23:00, which lie outside
the window — the `post_market=False` branch of `BusinessHours._generate`
selects the 23:00 end time, contradicting the engine's own docstring
("Defaulting to event within trading hours, that is 14:30 to 21:00
UTC"). -/
theorem hourly_engine_exceeds_trading_hours :
    (BusinessHoursSimulationEngine.events 0 0 false false).map SimulationEvent.ts
      = [900, 960, 1020, 1080, 1140, 1200, 1260, 1320, 1380] ∧
    ∃ ev ∈ BusinessHoursSimulationEngine.events 0 0 false false,
      ¬ (870 ≤ ev.ts % 1440 ∧ ev.ts % 1440 ≤ 1260) := by
  constructor
  · decide
  · refine ⟨⟨1320, EventType.marketOpen⟩, by decide, by decide⟩

/-- Claim C4 (counterexample): with `start = 5` and `end = 0` — so
`end < start` — constructing the hourly clock variant succeeds instead
of failing with `InvalidRange`: `BusinessHoursSimulationEngine.__init__`
performs no range check. -/
theorem hourly_engine_accepts_inverted_range :
    (0 : ℕ) < 5 ∧ (BusinessHoursSimulationEngine.mk 5 0 false false).isOk = true := by
  decide

/-- Claim C4 (amended): for `end < start`, the daily clock variant fails
with `InvalidRange`, while the hourly variant performs no range check
and constructs an engine whose event sequence is empty. -/
theorem daily_engine_rejects_inverted_range (s e : ℕ) (pre_market post_market : Bool)
    (h : e < s) :
    BusinessDaysSimulationEngine.mk s e pre_market post_market
        = Except.error InitError.invalidRange ∧
    BusinessHoursSimulationEngine.mk s e pre_market post_market = Except.ok [] := by
  refine ⟨by simp [BusinessDaysSimulationEngine.mk, h], ?_⟩
  simp [BusinessHoursSimulationEngine.mk, BusinessHoursSimulationEngine.events,
    BusinessHours.rebalances, bdateRange_eq_nil h]

/-- Claim C4 (witness): the amended statement at `start = 5`,
`end = 0`. -/
theorem daily_engine_rejects_inverted_range_witness :
    BusinessDaysSimulationEngine.mk 5 0 true true = Except.error InitError.invalidRange ∧
    BusinessHoursSimulationEngine.mk 5 0 true true = Except.ok [] :=
  daily_engine_rejects_inverted_range 5 0 true true (by decide)

/-- Claim C5: the rebalance-schedule contract claims the produced
timestamps are deduplicated, strictly ascending and inside
`[start, end]`.  Evaluated on the window from day 0 00:00 (minute 0) to
day 0 01:00 (minute 60), `HourlyRebalance._generate_rebalances` maps
both hourly dates to the same 21:00 timestamp of their day: the result
`[1260, 1260]` is duplicated, not strictly ascending, and both elements
lie outside `[0, 60]`.  (In Python the constructor cannot even get this
far: `hourly.py` never imports `pandas`/`pytz` and raises `NameError`.) -/
theorem hourly_rebalance_breaks_schedule_contract :
    HourlyRebalance.rebalances 0 60 false = [1260, 1260] ∧
    ¬ (HourlyRebalance.rebalances 0 60 false).Pairwise (· < ·) ∧
    ∃ t ∈ HourlyRebalance.rebalances 0 60 false, ¬ (0 ≤ t ∧ t ≤ 60) := by
  refine ⟨by decide, by decide, 1260, by decide, by decide⟩

/-- Claim C6 (counterexample): with a configured burn-in of 10, a weekly
rebalance schedule containing the timestamp 5, and an event at
timestamp 5, the run loop does not invoke the quant trading system even
though 5 is in the schedule (and the frequency is not hourly): the
burn-in gate of `BacktestTradingSession.run` suppresses the
invocation. -/
theorem run_loop_burn_in_blocks_rebalance :
    runInvokesQts (some 10) "weekly" [5] 5 = false ∧
    ([5] : List ℕ).contains 5 = true ∧ "weekly" ≠ "hourly" := by
  refine ⟨by decide, by decide, by decide⟩

/-- Claim C6 (amended): the run loop invokes the strategy pipeline on an
event exactly when the event's timestamp has passed the configured
burn-in (vacuously, when no burn-in is configured) and either the
rebalance frequency is `"hourly"` (in which case every event counts) or
the timestamp is in the rebalance schedule. -/
theorem run_loop_invocation_rule (burn_in_dt : Option ℕ) (rebalance : String)
    (schedule : List ℕ) (dt : ℕ) :
    runInvokesQts burn_in_dt rebalance schedule dt
      = (burn_in_dt.all (fun b => decide (b ≤ dt))
          && (rebalance == "hourly" || schedule.contains dt)) := by
  cases burn_in_dt with
  | none =>
    by_cases h : rebalance = "hourly" <;>
      simp [runInvokesQts, isRebalanceEvent, h]
  | some b =>
    by_cases hb : b ≤ dt <;> by_cases h : rebalance = "hourly" <;>
      simp [runInvokesQts, isRebalanceEvent, h, hb]

/-- Every event of a day block carries a timestamp inside that day. -/
theorem dayEvents_ts_bounds (pre_market post_market : Bool) (d : ℕ) :
    ∀ ev ∈ BusinessDaysSimulationEngine.dayEvents pre_market post_market d,
      d * 1440 ≤ ev.ts ∧ ev.ts ≤ d * 1440 + 1439 := by
  intro ev hev
  cases pre_market <;> cases post_market <;>
    simp [BusinessDaysSimulationEngine.dayEvents] at hev <;>
    rcases hev with rfl | rfl | rfl | rfl <;> dsimp only <;> omega

/-- Within one day block the event timestamps strictly increase. -/
theorem dayEvents_ts_pairwise (pre_market post_market : Bool) (d : ℕ) :
    ((BusinessDaysSimulationEngine.dayEvents pre_market post_market d).map
      SimulationEvent.ts).Pairwise (· < ·) := by
  cases pre_market <;> cases post_market <;>
    simp [BusinessDaysSimulationEngine.dayEvents, List.pairwise_cons]

/-- Concatenating the day blocks of a strictly increasing day list keeps
the event timestamps strictly increasing. -/
theorem flatMap_dayEvents_pairwise (pre_market post_market : Bool) (l : List ℕ)
    (hl : l.Pairwise (· < ·)) :
    ((l.flatMap (BusinessDaysSimulationEngine.dayEvents pre_market post_market)).map
      SimulationEvent.ts).Pairwise (· < ·) := by
  induction l with
  | nil => simp
  | cons d tl ih =>
    rw [List.flatMap_cons, List.map_append, List.pairwise_append]
    obtain ⟨hhead, htail⟩ := List.pairwise_cons.mp hl
    refine ⟨dayEvents_ts_pairwise _ _ _, ih htail, ?_⟩
    intro x hx y hy
    obtain ⟨ev1, hev1, rfl⟩ := List.mem_map.mp hx
    obtain ⟨ev2, hev2, rfl⟩ := List.mem_map.mp hy
    obtain ⟨d2, hd2, hev2'⟩ := List.mem_flatMap.mp hev2
    have h1 := dayEvents_ts_bounds pre_market post_market d ev1 hev1
    have h2 := dayEvents_ts_bounds pre_market post_market d2 ev2 hev2'
    have hdd : d < d2 := hhead d2 hd2
    omega

/-- Claim C7: for `start ≤ end` the daily clock yields a finite,
strictly time-ordered event sequence; for every business day of the
range the market-open (14:30) and market-close (21:00) events are
present, the 00:00 pre-market and 23:59 post-market events are present
exactly when the corresponding flag is set, and every produced event is
one of those four shapes for some business day of the range. -/
theorem daily_engine_event_structure (s e : ℕ) (pre_market post_market : Bool)
    (_h : s ≤ e) :
    ((BusinessDaysSimulationEngine.events s e pre_market post_market).map
        SimulationEvent.ts).Pairwise (· < ·) ∧
    (∀ d ∈ bdateRange s e,
      (⟨d * 1440 + 870, EventType.marketOpen⟩ : SimulationEvent)
          ∈ BusinessDaysSimulationEngine.events s e pre_market post_market ∧
      (⟨d * 1440 + 1260, EventType.marketClose⟩ : SimulationEvent)
          ∈ BusinessDaysSimulationEngine.events s e pre_market post_market ∧
      ((⟨d * 1440, EventType.preMarket⟩ : SimulationEvent)
          ∈ BusinessDaysSimulationEngine.events s e pre_market post_market
        ↔ pre_market = true) ∧
      ((⟨d * 1440 + 1439, EventType.postMarket⟩ : SimulationEvent)
          ∈ BusinessDaysSimulationEngine.events s e pre_market post_market
        ↔ post_market = true)) ∧
    (∀ ev ∈ BusinessDaysSimulationEngine.events s e pre_market post_market,
      ∃ d ∈ bdateRange s e,
        ev = ⟨d * 1440, EventType.preMarket⟩ ∨
        ev = ⟨d * 1440 + 870, EventType.marketOpen⟩ ∨
        ev = ⟨d * 1440 + 1260, EventType.marketClose⟩ ∨
        ev = ⟨d * 1440 + 1439, EventType.postMarket⟩) := by
  refine ⟨flatMap_dayEvents_pairwise _ _ _ (bdateRange_pairwise s e), ?_, ?_⟩
  · intro d hd
    refine ⟨?_, ?_, ?_, ?_⟩
    · exact List.mem_flatMap.mpr ⟨d, hd, by cases pre_market <;> cases post_market <;>
        simp [BusinessDaysSimulationEngine.dayEvents]⟩
    · exact List.mem_flatMap.mpr ⟨d, hd, by cases pre_market <;> cases post_market <;>
        simp [BusinessDaysSimulationEngine.dayEvents]⟩
    · constructor
      · intro hmem
        obtain ⟨d2, hd2, hmem'⟩ := List.mem_flatMap.mp hmem
        cases pre_market
        · cases post_market <;> simp [BusinessDaysSimulationEngine.dayEvents] at hmem'
        · rfl
      · intro hp
        exact List.mem_flatMap.mpr ⟨d, hd, by subst hp; cases post_market <;>
          simp [BusinessDaysSimulationEngine.dayEvents]⟩
    · constructor
      · intro hmem
        obtain ⟨d2, hd2, hmem'⟩ := List.mem_flatMap.mp hmem
        cases post_market
        · cases pre_market <;> simp [BusinessDaysSimulationEngine.dayEvents] at hmem'
        · rfl
      · intro hp
        exact List.mem_flatMap.mpr ⟨d, hd, by subst hp; cases pre_market <;>
          simp [BusinessDaysSimulationEngine.dayEvents]⟩
  · intro ev hev
    obtain ⟨d, hd, hmem⟩ := List.mem_flatMap.mp hev
    refine ⟨d, hd, ?_⟩
    cases pre_market <;> cases post_market <;>
      simp [BusinessDaysSimulationEngine.dayEvents] at hmem <;>
      rcases hmem with rfl | rfl | rfl | rfl <;> simp

/-- Claim C7 (witness): the ordering part of the daily-engine structure
theorem at the concrete range day 0..day 4 with both flags set. -/
theorem daily_engine_event_structure_witness :
    ((BusinessDaysSimulationEngine.events 0 4 true true).map
      SimulationEvent.ts).Pairwise (· < ·) :=
  (daily_engine_event_structure 0 4 true true (by decide)).1

/-- One transaction changes `book cost − realised P&L` by exactly the
cash paid, `q * p`, in all four branches of the cost-basis algorithm. -/
theorem transact_book_realised (pos : LedgerPosition) (q p : ℚ) :
    bookCost (pos.transact q p) - (pos.transact q p).realised_pnl
      = bookCost pos - pos.realised_pnl + q * p := by
  unfold LedgerPosition.transact bookCost
  by_cases h0 : pos.quantity = 0
  · rw [if_pos h0]
    dsimp only
    rw [h0]
    ring
  · rw [if_neg h0]
    by_cases h1 : 0 < pos.quantity * q
    · rw [if_pos h1]
      dsimp only
      have hne : pos.quantity + q ≠ 0 := by
        rcases mul_pos_iff.mp h1 with ⟨ha, hb⟩ | ⟨ha, hb⟩
        · have hlt : 0 < pos.quantity + q := by linarith
          exact ne_of_gt hlt
        · have hlt : pos.quantity + q < 0 := by linarith
          exact ne_of_lt hlt
      field_simp
      ring
    · rw [if_neg h1]
      by_cases h2 : |q| ≤ |pos.quantity|
      · rw [if_pos h2]
        dsimp only
        ring
      · rw [if_neg h2]
        dsimp only
        ring

/-- Ledger invariant: after any transaction history, the position's book
cost minus the realised P&L equals the net cash paid into the asset. -/
theorem positionAfter_book (txns : List (ℚ × ℚ)) :
    bookCost (positionAfter txns) - (positionAfter txns).realised_pnl
      = netCashFlow txns := by
  induction txns using List.reverseRecOn with
  | nil => simp [positionAfter, netCashFlow, bookCost, LedgerPosition.empty]
  | append_singleton l t ih =>
    have hpa : positionAfter (l ++ [t]) = (positionAfter l).transact t.1 t.2 := by
      simp [positionAfter, List.foldl_append]
    have hncf : netCashFlow (l ++ [t]) = netCashFlow l + t.1 * t.2 := by
      simp [netCashFlow]
    rw [hpa, hncf, transact_book_realised, ih]

/-- Claim C1: at every snapshot — i.e. after any transaction history for
an asset, marked to any price — the reported `total_pnl` (the asset's
net economic profit) equals exactly `realised_pnl + unrealised_pnl`. -/
theorem snapshot_total_pnl_identity (txns : List (ℚ × ℚ)) (price : ℚ) :
    (assetSnapshot txns price).total_pnl
      = (assetSnapshot txns price).realised_pnl
        + (assetSnapshot txns price).unrealised_pnl := by
  have h := positionAfter_book txns
  dsimp [assetSnapshot]
  linarith

/-- Claim C2 (counterexample): the claim's execution rule — a LIMIT buy
executes only if `ask ≤ limit_price` — is false on the broker behaviour
the repository's unit test pins: at the claim's own scenario
(bid = 101, ask = 102, limit = 101.5 = 203/2) the ask exceeds the limit
price, yet the order executes (the pending set comes back empty and a
transaction at the limit price is appended). -/
theorem limit_buy_claim_rule_direction_false :
    ¬ ((102 : ℚ) ≤ 203 / 2) ∧
    brokerUpdateOrder zeroFee ⟨100000, []⟩ ⟨"EQ:TEST", 100, OrderType.limit, 203/2⟩ 101 102
      = (⟨100000 - 100 * (203/2) - 0, [⟨"EQ:TEST", 100, 203/2, 0⟩]⟩, []) := by
  constructor
  · norm_num
  · simp [brokerUpdateOrder, fillPrice, zeroFee]
    norm_num

/-- Claim C2 (amended): a pending LIMIT buy order evaluated against a
quote `(bid, ask)` executes exactly when `limit_price ≤ ask`; on
execution the fill price is the limit price, the cash decreases by
exactly `quantity * limit_price` plus the commission and one transaction
is appended; when `ask < limit_price` the portfolio is untouched and the
order remains pending.  In particular the scenario — quote `(101, 102)`,
buy 100 at limit 101.5 — executes at 101.5 and cash drops by exactly
`100 * 101.5 + commission`. -/
theorem limit_buy_execution (fee : ℚ → ℚ → ℚ) (p : BrokerPortfolio) (o : Order)
    (bid ask : ℚ) (hl : o.order_type = OrderType.limit) (hq : 0 < o.quantity) :
    (o.limit_price ≤ ask →
      brokerUpdateOrder fee p o bid ask =
        (⟨p.cash - o.quantity * o.limit_price - fee o.quantity o.limit_price,
          p.transactions
            ++ [⟨o.asset, o.quantity, o.limit_price, fee o.quantity o.limit_price⟩]⟩,
         [])) ∧
    (ask < o.limit_price → brokerUpdateOrder fee p o bid ask = (p, [o])) := by
  constructor
  · intro hle
    simp [brokerUpdateOrder, fillPrice, hl, hq, hle]
  · intro hgt
    simp [brokerUpdateOrder, fillPrice, hl, hq, not_le.mpr hgt]

/-- Claim C2 (witness): the scenario of the claim and of the unit test —
quote `(bid=101, ask=102)`, zero-fee model: the LIMIT buy of 100 units
at limit 101.5 = 203/2 executes at the limit price with cash dropping by
exactly `100 * 101.5 + commission`, while the LIMIT buy at limit 103
remains pending. -/
theorem limit_buy_execution_witness :
    brokerUpdateOrder zeroFee ⟨100000, []⟩ ⟨"EQ:TEST", 100, OrderType.limit, 203/2⟩ 101 102
      = (⟨100000 - 100 * (203/2) - zeroFee 100 (203/2),
          [] ++ [⟨"EQ:TEST", 100, 203/2, zeroFee 100 (203/2)⟩]⟩, []) ∧
    brokerUpdateOrder zeroFee ⟨100000, []⟩ ⟨"EQ:TEST", 100, OrderType.limit, 103⟩ 101 102
      = (⟨100000, []⟩, [⟨"EQ:TEST", 100, OrderType.limit, 103⟩]) :=
  ⟨(limit_buy_execution zeroFee ⟨100000, []⟩ ⟨"EQ:TEST", 100, OrderType.limit, 203/2⟩
      101 102 rfl (by norm_num)).1 (by norm_num),
    (limit_buy_execution zeroFee ⟨100000, []⟩ ⟨"EQ:TEST", 100, OrderType.limit, 103⟩
      101 102 rfl (by norm_num)).2 (by norm_num)⟩

/-- Claim C8: for a range-valid weekly-rebalance configuration,
construction fails with the missing-weekday error exactly when no
`rebalance_weekday` keyword is supplied; with one supplied, init never
produces that error (it proceeds past the check). -/
theorem weekly_requires_weekday (c : BacktestConfig) (hr : c.rebalance = "weekly")
    (hse : c.start_dt ≤ c.end_dt) :
    (c.rebalance_weekday = none →
      backtestInit c = Except.error InitError.missingRebalanceWeekday) ∧
    (c.rebalance_weekday ≠ none →
      backtestInit c ≠ Except.error InitError.missingRebalanceWeekday) := by
  have heng : createSimulationEngine c
      = Except.ok (BusinessDaysSimulationEngine.events c.start_dt c.end_dt false false) := by
    simp [createSimulationEngine, hr, BusinessDaysSimulationEngine.mk, Nat.not_lt.mpr hse]
  constructor
  · intro hw
    simp [backtestInit, heng, hr, hw]
  · intro hw
    simp only [backtestInit, heng]
    rw [if_neg (fun hcon => hw hcon.2)]
    simp only [createRebalanceEventTimes, createQuantTradingSystem, hr]
    norm_num
    cases c.long_only
    · cases hgl : c.gross_leverage <;> simp [hgl]
    · cases hcb : c.cash_buffer_percentage <;> simp [hcb]

/-- Claim C8 (witness): a weekly config over days 0..4 without a
weekday keyword fails with the missing-weekday error. -/
theorem weekly_requires_weekday_witness :
    backtestInit ⟨0, 4, "weekly", false, none, none, some 2, none⟩
      = Except.error InitError.missingRebalanceWeekday :=
  (weekly_requires_weekday ⟨0, 4, "weekly", false, none, none, some 2, none⟩ rfl
    (by decide)).1 rfl

/-- Claim C9: constructing a session in the default long/short
leveraged mode (`long_only=False`) fails whenever no `gross_leverage`
keyword is supplied; with one supplied (and an otherwise valid
buy-and-hold configuration) construction succeeds. -/
theorem long_short_requires_gross_leverage (c : BacktestConfig)
    (hlo : c.long_only = false) :
    (c.gross_leverage = none → (backtestInit c).isOk = false) ∧
    (c.rebalance = "buy_and_hold" → c.start_dt ≤ c.end_dt → c.gross_leverage ≠ none →
      (backtestInit c).isOk = true) := by
  constructor
  · intro hgl
    unfold backtestInit
    split
    · rfl
    · split
      · rfl
      · split
        · rfl
        · split
          · rfl
          · rename_i hqts
            simp [createQuantTradingSystem, hlo, hgl] at hqts
  · intro hbh hse hgl
    obtain ⟨g, hg⟩ := Option.ne_none_iff_exists'.mp hgl
    simp [backtestInit, createSimulationEngine, hbh, BusinessDaysSimulationEngine.mk,
      Nat.not_lt.mpr hse, createRebalanceEventTimes, createQuantTradingSystem, hlo, hg,
      Except.isOk, Except.toBool]

/-- Claim C9 (witness): a long/short daily config without
`gross_leverage` fails; a buy-and-hold one with `gross_leverage = 2`
constructs successfully. -/
theorem long_short_requires_gross_leverage_witness :
    (backtestInit ⟨0, 4, "daily", false, none, none, none, none⟩).isOk = false ∧
    (backtestInit ⟨0, 4, "buy_and_hold", false, none, none, some 2, none⟩).isOk = true :=
  ⟨(long_short_requires_gross_leverage ⟨0, 4, "daily", false, none, none, none, none⟩
      rfl).1 rfl,
    (long_short_requires_gross_leverage
      ⟨0, 4, "buy_and_hold", false, none, none, some 2, none⟩ rfl).2 rfl (by decide)
      (by simp)⟩

/-- Claim C10: `_update_equity_curve` records the broker value looked up
under the fixed key `"master"`: two sessions sharing a broker and a
curve but configured with different portfolio ids append identical
entries, and the appended value is the account-level total, not the
per-portfolio equity of the configured id. -/
theorem equity_curve_uses_master_key (s1 s2 : EquitySession) (dt : ℕ)
    (hb : s1.broker = s2.broker) (hc : s1.equity_curve = s2.equity_curve) :
    updateEquityCurve s1 dt = updateEquityCurve s2 dt ∧
    updateEquityCurve s1 dt
      = s1.equity_curve ++ [(dt, BrokerAccount.accountTotal s1.broker)] := by
  constructor
  · simp [updateEquityCurve, hb, hc]
  · simp [updateEquityCurve, getAccountTotalEquity]

/-- Claim C10 (witness): with the same two-portfolio broker, sessions
configured with portfolio ids `"000001"` and `"zzz"` record the same
equity-curve entry. -/
theorem equity_curve_uses_master_key_witness :
    updateEquityCurve ⟨"000001", ⟨[("000001", 50), ("other", 30)]⟩, []⟩ 7
      = updateEquityCurve ⟨"zzz", ⟨[("000001", 50), ("other", 30)]⟩, []⟩ 7 :=
  (equity_curve_uses_master_key ⟨"000001", ⟨[("000001", 50), ("other", 30)]⟩, []⟩
    ⟨"zzz", ⟨[("000001", 50), ("other", 30)]⟩, []⟩ 7 rfl rfl).1

end QSTrader
